import Mathlib

/-!
Shallow embedding of `cmd/gke-disk-cleanup/main.go` from coder/gke-disk-cleanup.

The embedding follows the Go source line by line:

* Go `map[string]string` label maps become association lists with unique
  first-match lookup (`lookupLabel`) and in-place-overwrite update
  (`setLabel`), matching Go map read/write semantics.  A `nil` map is the
  `none` of an `Option Labels` (proto getters hand `GetLabels` back as nil
  when unset).
* `time.Time` values and `time.Duration` become `Int` (nanoseconds, as in
  Go); `time.Since(t)` at wall-clock instant `now` is `now - t`.  The Go
  code reads the wall clock inside `handleMarkAction` via `time.Since`;
  the embedding makes that hidden read an explicit `now : Int` argument.
* `time.Parse(time.RFC3339, s)` is an external library call; it is an
  abstract parameter `parse : String → Option Int` (`none` = parse error).
* The GCP `disksClient` is an oracle (`DisksClient`) saying, per request,
  whether the service call fails; pipeline functions return the ordered
  trace of service calls they issued (`List Call`) plus their Go `error`
  result, encoded as an inductive mirroring the sentinel/wrapped error
  values the source distinguishes by identity in its `switch err` blocks.
* Request ids (`uuid.New()`) are generated randomness that no compared
  behaviour depends on; they are omitted from the request records.
-/

/-- Go label maps, `map[string]string`, as association lists. -/
abbrev Labels := List (String × String)

/-- The label key, `labelMarkedForDeletion = "marked-for-deletion"` in main.go. -/
def labelMarkedForDeletion : String := "marked-for-deletion"

/-- Go map read `labels[k]`: first matching key, `none` when absent. -/
def lookupLabel (k : String) : Labels → Option String
  | [] => none
  | (k', v) :: rest => if k' = k then some v else lookupLabel k rest

/-- Go map write `labels[k] = v`: overwrite the binding in place, append when
absent. -/
def setLabel (m : Labels) (k v : String) : Labels :=
  match m with
  | [] => [(k, v)]
  | (k', v') :: rest => if k' = k then (k, v) :: rest else (k', v') :: setLabel rest k v

/-- A `computepb.Disk` as read from the iterator: the fields main.go uses.
Proto getters return zero values for unset fields, so `lastAttachTimestamp`
is a plain `String` (`""` = never attached) while `labels` keeps the Go
nil-map / empty-map distinction. -/
structure Disk where
  name : String
  id : Nat
  sizeGb : Int
  lastAttachTimestamp : String
  labels : Option Labels
  labelFingerprint : String
  region : String
  deriving DecidableEq, Repr

/-- Go `type action string`. -/
abbrev action := String

/-- Go `const actionSkip = ""`. -/
def actionSkip : action := ""

/-- Go `const actionMark = "MARK"`. -/
def actionMark : action := "MARK"

/-- Go `const actionUnmark = "UNMARK"`. -/
def actionUnmark : action := "UNMARK"

/-- The error values `handleMarkAction` can return, told apart as the Go
callers tell them apart.  `lastAttachedWithinCutoff` mirrors the declared
sentinel `errLastAttachedWithinCutoff`, which `doMarkCmd` has a switch case
for. -/
inductive MarkErr where
  | parseError
  | alreadyLabelled
  | unlabelled
  | lastAttachedWithinCutoff
  deriving DecidableEq, Repr

/-- `handleMarkAction` from main.go, lines 176-208.  `parse` stands for
`time.Parse(time.RFC3339, ·)` and `now` for the wall-clock instant read by
`time.Since`; both are hidden inputs of the Go function, not parameters of
its signature. -/
def handleMarkAction (parse : String → Option Int) (now : Int)
    (lastAttachTimestamp : String) (labels : Option Labels) (cutoff : Int) :
    action × Option MarkErr :=
  if lastAttachTimestamp = "" then
    (actionMark, none)
  else
    match parse lastAttachTimestamp with
    | none => (actionSkip, some MarkErr.parseError)
    | some lastAttachTime =>
      let labels' := labels.getD []
      let labelVal? := lookupLabel labelMarkedForDeletion labels'
      let lastAttachedWithinCutoff := now - lastAttachTime < cutoff
      if lastAttachedWithinCutoff then
        -- previously labelled but attached again later -> unmark
        if labelVal? = some "true" then (actionUnmark, none)
        else (actionSkip, none)
      else
        -- already labelled and not attached before cutoff
        match labelVal? with
        | some labelVal =>
          if labelVal = "true" then (actionSkip, some MarkErr.alreadyLabelled)
          else (actionSkip, some MarkErr.unlabelled)
        | none => (actionMark, none)

/-- The `ZoneSetLabelsRequest` resource inside a `SetLabelsDiskRequest`. -/
structure ZoneSetLabelsRequest where
  labels : Labels
  labelFingerprint : String
  deriving DecidableEq, Repr

/-- The `computepb.SetLabelsDiskRequest` fields main.go fills (the random
`RequestId` aside). -/
structure SetLabelsDiskRequest where
  project : String
  resource : String
  zone : String
  zoneSetLabelsRequestResource : ZoneSetLabelsRequest
  deriving DecidableEq, Repr

/-- The `computepb.CreateSnapshotDiskRequest` fields main.go fills (the random
`RequestId` aside): the snapshot resource is flattened into its name, labels
and storage locations. -/
structure CreateSnapshotDiskRequest where
  disk : String
  project : String
  snapshotName : String
  snapshotLabels : Labels
  storageLocations : List String
  zone : String
  deriving DecidableEq, Repr

/-- The `computepb.DeleteDiskRequest` fields main.go fills (the random
`RequestId` aside). -/
structure DeleteDiskRequest where
  disk : String
  project : String
  zone : String
  deriving DecidableEq, Repr

/-- One service call the pipelines can issue, in the order issued.
`waitSnapshot` is the `op.Wait(ctx)` on the operation returned by
`CreateSnapshot`, keyed by the disk it snapshots. -/
inductive Call where
  | setLabels (req : SetLabelsDiskRequest)
  | createSnapshot (req : CreateSnapshotDiskRequest)
  | waitSnapshot (disk : String)
  | delete (req : DeleteDiskRequest)
  deriving DecidableEq, Repr

/-- The service as an oracle: for each request, does the call return an
error?  `waitErr` is whether `op.Wait` on the snapshot operation for the
given disk fails. -/
structure DisksClient where
  setLabelsErr : SetLabelsDiskRequest → Bool
  createSnapshotErr : CreateSnapshotDiskRequest → Bool
  waitErr : String → Bool
  deleteErr : DeleteDiskRequest → Bool

/-- One answer of `diskIterator.Next()`: a disk, the `iterator.Done`
sentinel, or any other iteration error. -/
inductive NextResult where
  | ok (d : Disk)
  | done
  | fail
  deriving DecidableEq, Repr

/-- The Go `error` returned by `doMarkOne`, told apart exactly as the
`switch err` in `doMarkCmd` tells errors apart: `iterator.Done` and
`errDryRun` are sentinels compared by identity; iteration errors, parse
errors and SetLabels errors are wrapped with `xerrors.Errorf("...: %w", ...)`
and so are fresh values that fall to the `default` case, as do the raw
`errAlreadyLabelled` / `errUnlabelled` values (no case matches them). -/
inductive MarkOneResult where
  | ok
  | done
  | iterErr
  | actionErr (e : MarkErr)
  | dryRun
  | setLabelsFailed
  | unhandledAction
  deriving DecidableEq, Repr

/-- `buildSetLabelsReq` is the request construction inside `handleSetLabel`
(main.go lines 210-227): take the disk's labels (nil becomes empty), write
`k = v` into them, and send them with the fingerprint captured at fetch. -/
def buildSetLabelsReq (disk : Disk) (projectID zone k v : String) :
    SetLabelsDiskRequest :=
  let diskLabels := disk.labels.getD []
  let diskLabels := setLabel diskLabels k v
  { project := projectID
    resource := toString disk.id
    zone := zone
    zoneSetLabelsRequestResource :=
      { labels := diskLabels, labelFingerprint := disk.labelFingerprint } }

/-- `handleSetLabel` from main.go lines 210-232: issue the SetLabels call and
wrap a service error. -/
def handleSetLabel (dc : DisksClient) (disk : Disk) (projectID zone k v : String) :
    List Call × MarkOneResult :=
  let req := buildSetLabelsReq disk projectID zone k v
  if dc.setLabelsErr req then ([Call.setLabels req], MarkOneResult.setLabelsFailed)
  else ([Call.setLabels req], MarkOneResult.ok)

/-- `doMarkOne` from main.go lines 133-168, for one `Next()` answer: the
trace of service calls issued and the returned error class. -/
def doMarkOne (dc : DisksClient) (next : NextResult) (parse : String → Option Int)
    (now : Int) (projectID zone : String) (cutoff : Int) (dryRun : Bool) :
    List Call × MarkOneResult :=
  match next with
  | NextResult.done => ([], MarkOneResult.done)
  | NextResult.fail => ([], MarkOneResult.iterErr)
  | NextResult.ok disk =>
    match handleMarkAction parse now disk.lastAttachTimestamp disk.labels cutoff with
    | (_, some e) => ([], MarkOneResult.actionErr e)
    | (a, none) =>
      if a = actionSkip then ([], MarkOneResult.ok)
      else if a = actionMark then
        if dryRun then ([], MarkOneResult.dryRun)
        else handleSetLabel dc disk projectID zone labelMarkedForDeletion "true"
      else if a = actionUnmark then
        if dryRun then ([], MarkOneResult.dryRun)
        else handleSetLabel dc disk projectID zone labelMarkedForDeletion "false"
      else ([], MarkOneResult.unhandledAction)

/-- The Go `error` returned by `doCleanupOne`, told apart as the `switch err`
in `doCleanupCmd` tells errors apart: only `iterator.Done` and `errDryRun`
are sentinels; every other returned error is a fresh wrapped value falling
to the `default` case. -/
inductive CleanupOneResult where
  | ok
  | done
  | iterErr
  | missingLabel
  | wrongLabelValue (v : String)
  | snapshotCreateFailed
  | snapshotWaitFailed
  | dryRun
  | deleteFailed
  deriving DecidableEq, Repr

/-- The snapshot request built in `doCleanupOne` (main.go lines 285-297). -/
def buildCreateSnapshotReq (disk : Disk) (projectID zone : String) :
    CreateSnapshotDiskRequest :=
  { disk := disk.name
    project := projectID
    snapshotName := disk.name ++ "-snapshot"
    snapshotLabels := [("created-by", "gke-disk-cleanup")]
    storageLocations := [disk.region]
    zone := zone }

/-- The delete request built in `doCleanupOne` (main.go lines 317-323). -/
def buildDeleteReq (disk : Disk) (projectID zone : String) : DeleteDiskRequest :=
  { disk := disk.name, project := projectID, zone := zone }

/-- The tail of `doCleanupOne` after the snapshot block (main.go lines
311-329): the dry-run early return, else the Delete call. -/
def cleanupDeletePhase (dc : DisksClient) (disk : Disk) (projectID zone : String)
    (dryRun : Bool) : List Call × CleanupOneResult :=
  if dryRun then ([], CleanupOneResult.dryRun)
  else
    let req := buildDeleteReq disk projectID zone
    if dc.deleteErr req then ([Call.delete req], CleanupOneResult.deleteFailed)
    else ([Call.delete req], CleanupOneResult.ok)

/-- `doCleanupOne` from main.go lines 258-330, for one `Next()` answer: the
trace of service calls issued and the returned error class. -/
def doCleanupOne (dc : DisksClient) (next : NextResult) (projectID zone : String)
    (doSnapshot dryRun : Bool) : List Call × CleanupOneResult :=
  match next with
  | NextResult.done => ([], CleanupOneResult.done)
  | NextResult.fail => ([], CleanupOneResult.iterErr)
  | NextResult.ok disk =>
    match disk.labels with
    | none => ([], CleanupOneResult.missingLabel)
    | some diskLabels =>
      match lookupLabel labelMarkedForDeletion diskLabels with
      | none => ([], CleanupOneResult.missingLabel)
      | some labelValue =>
        if labelValue = "true" then
          if doSnapshot then
            if dryRun then
              -- dry run - would snapshot disk prior to deletion (log only)
              cleanupDeletePhase dc disk projectID zone dryRun
            else
              let req := buildCreateSnapshotReq disk projectID zone
              if dc.createSnapshotErr req then
                ([Call.createSnapshot req], CleanupOneResult.snapshotCreateFailed)
              else if dc.waitErr disk.name then
                ([Call.createSnapshot req, Call.waitSnapshot disk.name],
                  CleanupOneResult.snapshotWaitFailed)
              else
                let tail := cleanupDeletePhase dc disk projectID zone dryRun
                (Call.createSnapshot req :: Call.waitSnapshot disk.name :: tail.1,
                  tail.2)
          else cleanupDeletePhase dc disk projectID zone dryRun
        else ([], CleanupOneResult.wrongLabelValue labelValue)

/-- `doMarkCmd`'s loop (main.go lines 116-130) over a stream of `Next()`
answers: every result other than `iterator.Done` is logged and the loop
continues; `iterator.Done` returns nil.  The `Bool` is `true` when the loop
returned (always nil); `false` means the supplied stream ran out before the
loop ever returned (in the program the loop would keep calling `Next`). -/
def doMarkCmd (dc : DisksClient) (parse : String → Option Int) (now : Int)
    (projectID zone : String) (cutoff : Int) (dryRun : Bool) :
    List NextResult → List Call × Bool
  | [] => ([], false)
  | r :: rest =>
    let step := doMarkOne dc r parse now projectID zone cutoff dryRun
    if step.2 = MarkOneResult.done then (step.1, true)
    else
      let tail := doMarkCmd dc parse now projectID zone cutoff dryRun rest
      (step.1 ++ tail.1, tail.2)

/-- `doCleanupCmd`'s loop (main.go lines 243-255), with the same stream
convention as `doMarkCmd`. -/
def doCleanupCmd (dc : DisksClient) (projectID zone : String)
    (doSnapshot dryRun : Bool) : List NextResult → List Call × Bool
  | [] => ([], false)
  | r :: rest =>
    let step := doCleanupOne dc r projectID zone doSnapshot dryRun
    if step.2 = CleanupOneResult.done then (step.1, true)
    else
      let tail := doCleanupCmd dc projectID zone doSnapshot dryRun rest
      (step.1 ++ tail.1, tail.2)

/-- The verified label state of a fetched disk: the value its label map (nil
treated as missing) holds at `marked-for-deletion`. -/
def labelState (disk : Disk) : Option String :=
  disk.labels.bind (lookupLabel labelMarkedForDeletion)

/-- The service-side label map of a disk after one non-dry-run pass of
`doMarkOne` over it: when the pass issued a SetLabels call that the service
accepted, the submitted map; otherwise the map is unchanged. -/
def labelsAfterMarkOne (dc : DisksClient) (parse : String → Option Int) (now : Int)
    (projectID zone : String) (cutoff : Int) (disk : Disk) : Option Labels :=
  match doMarkOne dc (NextResult.ok disk) parse now projectID zone cutoff false with
  | ([Call.setLabels req], MarkOneResult.ok) =>
    some req.zoneSetLabelsRequestResource.labels
  | _ => disk.labels

/-- A concrete RFC3339 parser fixture for witnesses and counterexamples:
`"T"` parses to instant 0, everything else fails to parse. -/
def parseT : String → Option Int := fun s => if s = "T" then some 0 else none

/-- A service fixture for witnesses and counterexamples: every call succeeds. -/
def dcOk : DisksClient :=
  { setLabelsErr := fun _ => false
    createSnapshotErr := fun _ => false
    waitErr := fun _ => false
    deleteErr := fun _ => false }

/-- A disk fixture carrying the `marked-for-deletion = "true"` label. -/
def diskTrue : Disk :=
  { name := "disk-a", id := 7, sizeGb := 10, lastAttachTimestamp := "T"
    labels := some [("goog-gke-volume", ""), (labelMarkedForDeletion, "true")]
    labelFingerprint := "fp-a", region := "region-a" }

/-- A disk fixture with a label map that lacks `marked-for-deletion`. -/
def diskUnmarked : Disk :=
  { name := "disk-b", id := 8, sizeGb := 20, lastAttachTimestamp := "T"
    labels := some [("goog-gke-volume", "")]
    labelFingerprint := "fp-b", region := "region-b" }

/-- A disk fixture that was never attached (empty timestamp, no labels). -/
def diskNever : Disk :=
  { name := "disk-c", id := 9, sizeGb := 30, lastAttachTimestamp := ""
    labels := none, labelFingerprint := "fp-c", region := "region-c" }

theorem lookupLabel_setLabel_self (m : Labels) (k v : String) :
    lookupLabel k (setLabel m k v) = some v := by
  induction m with
  | nil => simp [setLabel, lookupLabel]
  | cons p rest ih =>
    obtain ⟨k', v'⟩ := p
    by_cases h : k' = k
    · simp [setLabel, lookupLabel, h]
    · simp [setLabel, lookupLabel, h, ih]

theorem lookupLabel_setLabel_ne (m : Labels) (k v k' : String) (h : k' ≠ k) :
    lookupLabel k' (setLabel m k v) = lookupLabel k' m := by
  have h' : ¬ (k = k') := fun hh => h hh.symm
  induction m with
  | nil => simp [setLabel, lookupLabel, h']
  | cons p rest ih =>
    obtain ⟨a, b⟩ := p
    by_cases ha : a = k
    · subst ha
      simp [setLabel, lookupLabel, h']
    · simp [setLabel, lookupLabel, ha, ih]

theorem setLabel_of_lookup (m : Labels) (k v : String)
    (h : lookupLabel k m = some v) : setLabel m k v = m := by
  induction m with
  | nil => simp [lookupLabel] at h
  | cons p rest ih =>
    obtain ⟨a, b⟩ := p
    by_cases ha : a = k
    · subst ha
      simp [lookupLabel] at h
      simp [setLabel, h]
    · simp [lookupLabel, ha] at h
      simp [setLabel, ha, ih h]

theorem setLabel_idem (m : Labels) (k v : String) :
    setLabel (setLabel m k v) k v = setLabel m k v :=
  setLabel_of_lookup _ _ _ (lookupLabel_setLabel_self m k v)

theorem hma_empty (parse : String → Option Int) (now : Int) (labels : Option Labels)
    (cutoff : Int) : handleMarkAction parse now "" labels cutoff = (actionMark, none) := by
  simp [handleMarkAction]

theorem hma_parse_fail {parse : String → Option Int} {now : Int} {ts : String}
    {labels : Option Labels} {cutoff : Int} (h1 : ts ≠ "") (h2 : parse ts = none) :
    handleMarkAction parse now ts labels cutoff = (actionSkip, some MarkErr.parseError) := by
  simp [handleMarkAction, h1, h2]

theorem hma_within_marked {parse : String → Option Int} {now : Int} {ts : String}
    {labels : Option Labels} {cutoff t : Int} (h1 : ts ≠ "") (h2 : parse ts = some t)
    (h3 : now - t < cutoff)
    (h4 : lookupLabel labelMarkedForDeletion (labels.getD []) = some "true") :
    handleMarkAction parse now ts labels cutoff = (actionUnmark, none) := by
  simp [handleMarkAction, h1, h2, h3, h4]

theorem hma_within_other {parse : String → Option Int} {now : Int} {ts : String}
    {labels : Option Labels} {cutoff t : Int} (h1 : ts ≠ "") (h2 : parse ts = some t)
    (h3 : now - t < cutoff)
    (h4 : lookupLabel labelMarkedForDeletion (labels.getD []) ≠ some "true") :
    handleMarkAction parse now ts labels cutoff = (actionSkip, none) := by
  simp [handleMarkAction, h1, h2, h3, h4]

theorem hma_eligible_marked {parse : String → Option Int} {now : Int} {ts : String}
    {labels : Option Labels} {cutoff t : Int} (h1 : ts ≠ "") (h2 : parse ts = some t)
    (h3 : ¬ (now - t < cutoff))
    (h4 : lookupLabel labelMarkedForDeletion (labels.getD []) = some "true") :
    handleMarkAction parse now ts labels cutoff =
      (actionSkip, some MarkErr.alreadyLabelled) := by
  simp [handleMarkAction, h1, h2, h3, h4]

theorem hma_eligible_other {parse : String → Option Int} {now : Int} {ts : String}
    {labels : Option Labels} {cutoff t : Int} {v : String} (h1 : ts ≠ "")
    (h2 : parse ts = some t) (h3 : ¬ (now - t < cutoff))
    (h4 : lookupLabel labelMarkedForDeletion (labels.getD []) = some v)
    (h5 : v ≠ "true") :
    handleMarkAction parse now ts labels cutoff =
      (actionSkip, some MarkErr.unlabelled) := by
  simp [handleMarkAction, h1, h2, h3, h4, h5]

theorem hma_eligible_absent {parse : String → Option Int} {now : Int} {ts : String}
    {labels : Option Labels} {cutoff t : Int} (h1 : ts ≠ "") (h2 : parse ts = some t)
    (h3 : ¬ (now - t < cutoff))
    (h4 : lookupLabel labelMarkedForDeletion (labels.getD []) = none) :
    handleMarkAction parse now ts labels cutoff = (actionMark, none) := by
  simp [handleMarkAction, h1, h2, h3, h4]

/-- C4: for a parsable last-attach timestamp whose elapsed time since
attachment is at least the cutoff, `handleMarkAction` returns Skip with the
already-marked diagnostic when the label value is exactly `"true"`, Skip with
the explicitly-unmarked diagnostic when the key is present with any other
value, and Mark when the key is absent. -/
theorem handleMarkAction_eligible_cases (parse : String → Option Int) (now : Int)
    (ts : String) (labels : Option Labels) (cutoff t : Int)
    (h1 : ts ≠ "") (h2 : parse ts = some t) (h3 : ¬ (now - t < cutoff)) :
    (lookupLabel labelMarkedForDeletion (labels.getD []) = some "true" →
      handleMarkAction parse now ts labels cutoff =
        (actionSkip, some MarkErr.alreadyLabelled)) ∧
    (∀ v, lookupLabel labelMarkedForDeletion (labels.getD []) = some v → v ≠ "true" →
      handleMarkAction parse now ts labels cutoff =
        (actionSkip, some MarkErr.unlabelled)) ∧
    (lookupLabel labelMarkedForDeletion (labels.getD []) = none →
      handleMarkAction parse now ts labels cutoff = (actionMark, none)) :=
  ⟨fun h4 => hma_eligible_marked h1 h2 h3 h4,
   fun _ h4 h5 => hma_eligible_other h1 h2 h3 h4 h5,
   fun h4 => hma_eligible_absent h1 h2 h3 h4⟩

theorem handleMarkAction_eligible_cases_witness :
    handleMarkAction parseT 100 "T" (some [(labelMarkedForDeletion, "true")]) 50 =
      (actionSkip, some MarkErr.alreadyLabelled) :=
  (handleMarkAction_eligible_cases parseT 100 "T"
      (some [(labelMarkedForDeletion, "true")]) 50 0
      (by decide) (by decide) (by decide)).1 (by decide)

/-- C5: a disk whose last-attach timestamp is absent (empty string) is always
decided Mark with no diagnostic, for every cutoff and every label map. -/
theorem handleMarkAction_never_attached (parse : String → Option Int) (now : Int)
    (labels : Option Labels) (cutoff : Int) :
    handleMarkAction parse now "" labels cutoff = (actionMark, none) :=
  hma_empty parse now labels cutoff

/-- C6 counterexample: within the cutoff with the label key absent,
`handleMarkAction` returns Skip with NO diagnostic — not Skip with the
within-cutoff diagnostic the claim states (`errLastAttachedWithinCutoff` is
declared and has a switch case in `doMarkCmd`, but is never returned). -/
theorem handleMarkAction_within_cutoff_cex :
    handleMarkAction parseT 0 "T" (some [("goog-gke-volume", "")]) 50 =
      (actionSkip, none) ∧
    (actionSkip, (none : Option MarkErr)) ≠
      (actionSkip, some MarkErr.lastAttachedWithinCutoff) := by
  constructor
  · decide
  · decide

/-- C6 as amended: for a parsable timestamp with elapsed time under the
cutoff, `handleMarkAction` returns Unmark when the current label value is
exactly `"true"`, and for any other label state returns Skip with no
diagnostic (not the within-cutoff diagnostic). -/
theorem handleMarkAction_within_cutoff (parse : String → Option Int) (now : Int)
    (ts : String) (labels : Option Labels) (cutoff t : Int)
    (h1 : ts ≠ "") (h2 : parse ts = some t) (h3 : now - t < cutoff) :
    (lookupLabel labelMarkedForDeletion (labels.getD []) = some "true" →
      handleMarkAction parse now ts labels cutoff = (actionUnmark, none)) ∧
    (lookupLabel labelMarkedForDeletion (labels.getD []) ≠ some "true" →
      handleMarkAction parse now ts labels cutoff = (actionSkip, none)) :=
  ⟨fun h4 => hma_within_marked h1 h2 h3 h4,
   fun h4 => hma_within_other h1 h2 h3 h4⟩

theorem handleMarkAction_within_cutoff_witness :
    handleMarkAction parseT 10 "T" (some [(labelMarkedForDeletion, "true")]) 50 =
      (actionUnmark, none) :=
  (handleMarkAction_within_cutoff parseT 10 "T"
      (some [(labelMarkedForDeletion, "true")]) 50 0
      (by decide) (by decide) (by decide)).1 (by decide)

/-- C9 counterexample: two invocations of `handleMarkAction` with the same
last-attach timestamp, label map and cutoff give different results, because
the function reads the wall clock internally (`time.Since`) rather than
through an injected parameter: here the readings 0 and 100 straddle the
cutoff. -/
theorem handleMarkAction_wall_clock_cex :
    handleMarkAction parseT 0 "T" (some [("goog-gke-volume", "x")]) 50 ≠
      handleMarkAction parseT 100 "T" (some [("goog-gke-volume", "x")]) 50 := by
  decide

/-- C9 as amended: `handleMarkAction` is a pure function of its declared
inputs together with the wall-clock instant read internally via `time.Since`
(not an injected parameter), and it depends on that instant only through the
elapsed-versus-cutoff comparison: two invocations whose wall-clock readings
classify the parsed timestamp the same way give identical results. -/
theorem handleMarkAction_now_congruence (parse : String → Option Int)
    (ts : String) (labels : Option Labels) (cutoff now1 now2 : Int)
    (h : ∀ t, parse ts = some t → ((now1 - t < cutoff) ↔ (now2 - t < cutoff))) :
    handleMarkAction parse now1 ts labels cutoff =
      handleMarkAction parse now2 ts labels cutoff := by
  by_cases h1 : ts = ""
  · subst h1; simp [handleMarkAction]
  · cases h2 : parse ts with
    | none => rw [hma_parse_fail h1 h2, hma_parse_fail h1 h2]
    | some t =>
      have hiff := h t h2
      by_cases h3 : now1 - t < cutoff
      · have h3' := hiff.mp h3
        by_cases h4 : lookupLabel labelMarkedForDeletion (labels.getD []) = some "true"
        · rw [hma_within_marked h1 h2 h3 h4, hma_within_marked h1 h2 h3' h4]
        · rw [hma_within_other h1 h2 h3 h4, hma_within_other h1 h2 h3' h4]
      · have h3' : ¬ (now2 - t < cutoff) := fun hc => h3 (hiff.mpr hc)
        cases h4 : lookupLabel labelMarkedForDeletion (labels.getD []) with
        | none =>
          rw [hma_eligible_absent h1 h2 h3 h4, hma_eligible_absent h1 h2 h3' h4]
        | some v =>
          by_cases h5 : v = "true"
          · subst h5
            rw [hma_eligible_marked h1 h2 h3 h4, hma_eligible_marked h1 h2 h3' h4]
          · rw [hma_eligible_other h1 h2 h3 h4 h5,
              hma_eligible_other h1 h2 h3' h4 h5]

theorem handleMarkAction_now_congruence_witness :
    handleMarkAction parseT 0 "T" none 50 = handleMarkAction parseT 10 "T" none 50 :=
  handleMarkAction_now_congruence parseT "T" none 50 0 10 (by
    intro t ht
    simp [parseT] at ht
    subst ht
    decide)

/-- C3: with dry run enabled neither pipeline issues any service call at
all — in particular `doMarkOne` never calls SetLabels and `doCleanupOne`
never calls CreateSnapshot or Delete, for every disk, label map and iterator
answer. -/
theorem dry_run_no_mutation (dc : DisksClient) (next : NextResult)
    (parse : String → Option Int) (now : Int) (projectID zone : String)
    (cutoff : Int) (doSnapshot : Bool) :
    (doMarkOne dc next parse now projectID zone cutoff true).1 = [] ∧
    (doCleanupOne dc next projectID zone doSnapshot true).1 = [] := by
  constructor
  · cases next with
    | done => rfl
    | fail => rfl
    | ok disk =>
      rcases h : handleMarkAction parse now disk.lastAttachTimestamp disk.labels
        cutoff with ⟨a, e⟩
      cases e with
      | some e => simp [doMarkOne, h]
      | none =>
        by_cases ha1 : a = actionSkip
        · simp [doMarkOne, h, ha1]
        · by_cases ha2 : a = actionMark
          · simp [doMarkOne, h, ha1, ha2, actionMark, actionSkip]
          · by_cases ha3 : a = actionUnmark
            · simp [doMarkOne, h, ha1, ha2, ha3, actionUnmark, actionMark, actionSkip]
            · simp [doMarkOne, h, ha1, ha2, ha3]
  · cases next with
    | done => rfl
    | fail => rfl
    | ok disk =>
      cases hl : disk.labels with
      | none => simp [doCleanupOne, hl]
      | some ls =>
        cases hv : lookupLabel labelMarkedForDeletion ls with
        | none => simp [doCleanupOne, hl, hv]
        | some v =>
          by_cases hvt : v = "true"
          · cases doSnapshot <;>
              simp [doCleanupOne, hl, hv, hvt, cleanupDeletePhase]
          · simp [doCleanupOne, hl, hv, hvt]

theorem cleanupOne_bad_label (dc : DisksClient) (disk : Disk) (projectID zone : String)
    (doSnapshot dryRun : Bool) (h : labelState disk ≠ some "true") :
    (doCleanupOne dc (NextResult.ok disk) projectID zone doSnapshot dryRun).1 = [] ∧
    ((doCleanupOne dc (NextResult.ok disk) projectID zone doSnapshot dryRun).2 =
        CleanupOneResult.missingLabel ∨
      ∃ v, v ≠ "true" ∧
        (doCleanupOne dc (NextResult.ok disk) projectID zone doSnapshot dryRun).2 =
          CleanupOneResult.wrongLabelValue v) := by
  cases hl : disk.labels with
  | none => simp [doCleanupOne, hl]
  | some ls =>
    cases hv : lookupLabel labelMarkedForDeletion ls with
    | none => simp [doCleanupOne, hl, hv]
    | some v =>
      have hvt : v ≠ "true" := by
        intro hh
        subst hh
        exact h (by simp [labelState, hl, hv])
      refine ⟨?_, Or.inr ⟨v, hvt, ?_⟩⟩ <;> simp [doCleanupOne, hl, hv, hvt]

/-- C1: the cleanup step re-validates the label invariant: a disk whose
label map is nil, lacks `marked-for-deletion`, or maps it to anything but
the exact string `"true"` produces an invariant-violation error with no
service call issued (no CreateSnapshot, no Delete); a Delete call can only
be issued for a disk whose verified label value is exactly `"true"`. -/
theorem cleanup_label_invariant (dc : DisksClient) (disk : Disk)
    (projectID zone : String) (doSnapshot dryRun : Bool) :
    (labelState disk ≠ some "true" →
      (doCleanupOne dc (NextResult.ok disk) projectID zone doSnapshot dryRun).1 = [] ∧
      ((doCleanupOne dc (NextResult.ok disk) projectID zone doSnapshot dryRun).2 =
          CleanupOneResult.missingLabel ∨
        ∃ v, v ≠ "true" ∧
          (doCleanupOne dc (NextResult.ok disk) projectID zone doSnapshot dryRun).2 =
            CleanupOneResult.wrongLabelValue v)) ∧
    (∀ req, Call.delete req ∈
        (doCleanupOne dc (NextResult.ok disk) projectID zone doSnapshot dryRun).1 →
      labelState disk = some "true") := by
  refine ⟨fun h => cleanupOne_bad_label dc disk projectID zone doSnapshot dryRun h, ?_⟩
  intro req hmem
  by_cases h : labelState disk = some "true"
  · exact h
  · exfalso
    rw [(cleanupOne_bad_label dc disk projectID zone doSnapshot dryRun h).1] at hmem
    simp at hmem

/-- C2: with `doSnapshot = true` and `dryRun = false`, a Delete call appears
in the trace only when CreateSnapshot succeeded and the snapshot wait
succeeded, and then the trace is exactly CreateSnapshot, the wait, and the
Delete, in that order. -/
theorem cleanup_snapshot_precedes_delete (dc : DisksClient) (next : NextResult)
    (projectID zone : String) (reqD : DeleteDiskRequest)
    (hmem : Call.delete reqD ∈ (doCleanupOne dc next projectID zone true false).1) :
    ∃ disk, next = NextResult.ok disk ∧
      dc.createSnapshotErr (buildCreateSnapshotReq disk projectID zone) = false ∧
      dc.waitErr disk.name = false ∧
      reqD = buildDeleteReq disk projectID zone ∧
      (doCleanupOne dc next projectID zone true false).1 =
        [Call.createSnapshot (buildCreateSnapshotReq disk projectID zone),
          Call.waitSnapshot disk.name, Call.delete reqD] := by
  cases next with
  | done => simp [doCleanupOne] at hmem
  | fail => simp [doCleanupOne] at hmem
  | ok disk =>
    cases hl : disk.labels with
    | none => simp [doCleanupOne, hl] at hmem
    | some ls =>
      cases hv : lookupLabel labelMarkedForDeletion ls with
      | none => simp [doCleanupOne, hl, hv] at hmem
      | some v =>
        by_cases hvt : v = "true"
        · subst hvt
          by_cases hc : dc.createSnapshotErr (buildCreateSnapshotReq disk projectID zone) = true
          · simp [doCleanupOne, hl, hv, hc] at hmem
          · by_cases hw : dc.waitErr disk.name = true
            · simp [doCleanupOne, hl, hv, hc, hw] at hmem
            · have htr : (doCleanupOne dc (NextResult.ok disk) projectID zone true false).1 =
                  [Call.createSnapshot (buildCreateSnapshotReq disk projectID zone),
                    Call.waitSnapshot disk.name,
                    Call.delete (buildDeleteReq disk projectID zone)] := by
                by_cases hd : dc.deleteErr (buildDeleteReq disk projectID zone) = true <;>
                  simp [doCleanupOne, hl, hv, hc, hw, cleanupDeletePhase, hd]
              rw [htr] at hmem
              simp only [List.mem_cons, List.not_mem_nil, or_false] at hmem
              rcases hmem with hmem | hmem | hmem
              · exact absurd hmem (by simp)
              · exact absurd hmem (by simp)
              · have hreq : reqD = buildDeleteReq disk projectID zone := by
                  injection hmem
                exact ⟨disk, rfl, by simpa using hc, by simpa using hw, hreq,
                  by rw [htr, hreq]⟩
        · simp [doCleanupOne, hl, hv, hvt] at hmem

theorem handleSetLabel_ne_done (dc : DisksClient) (disk : Disk)
    (projectID zone k v : String) :
    (handleSetLabel dc disk projectID zone k v).2 ≠ MarkOneResult.done := by
  by_cases hs : dc.setLabelsErr (buildSetLabelsReq disk projectID zone k v) = true <;>
    simp [handleSetLabel, hs]

theorem markOne_ok_ne_done (dc : DisksClient) (disk : Disk)
    (parse : String → Option Int) (now : Int) (projectID zone : String)
    (cutoff : Int) (dryRun : Bool) :
    (doMarkOne dc (NextResult.ok disk) parse now projectID zone cutoff dryRun).2 ≠
      MarkOneResult.done := by
  rcases h : handleMarkAction parse now disk.lastAttachTimestamp disk.labels
    cutoff with ⟨a, e⟩
  cases e with
  | some e => simp [doMarkOne, h]
  | none =>
    simp only [doMarkOne, h]
    split_ifs <;> simp [handleSetLabel_ne_done]

theorem cleanupDeletePhase_ne_done (dc : DisksClient) (disk : Disk)
    (projectID zone : String) (dryRun : Bool) :
    (cleanupDeletePhase dc disk projectID zone dryRun).2 ≠
      CleanupOneResult.done := by
  cases dryRun with
  | true => simp [cleanupDeletePhase]
  | false =>
    by_cases hd : dc.deleteErr (buildDeleteReq disk projectID zone) = true <;>
      simp [cleanupDeletePhase, hd]

theorem cleanupOne_ok_ne_done (dc : DisksClient) (disk : Disk)
    (projectID zone : String) (doSnapshot dryRun : Bool) :
    (doCleanupOne dc (NextResult.ok disk) projectID zone doSnapshot dryRun).2 ≠
      CleanupOneResult.done := by
  cases hl : disk.labels with
  | none => simp [doCleanupOne, hl]
  | some ls =>
    cases hv : lookupLabel labelMarkedForDeletion ls with
    | none => simp [doCleanupOne, hl, hv]
    | some v =>
      by_cases hvt : v = "true"
      · simp only [doCleanupOne, hl, hv, hvt, if_true]
        split_ifs <;> simp [cleanupDeletePhase_ne_done]
      · simp [doCleanupOne, hl, hv, hvt]

theorem markOne_done_iff (dc : DisksClient) (r : NextResult)
    (parse : String → Option Int) (now : Int) (projectID zone : String)
    (cutoff : Int) (dryRun : Bool) :
    (doMarkOne dc r parse now projectID zone cutoff dryRun).2 = MarkOneResult.done ↔
      r = NextResult.done := by
  cases r with
  | done => simp [doMarkOne]
  | fail => simp [doMarkOne]
  | ok disk =>
    simp [markOne_ok_ne_done dc disk parse now projectID zone cutoff dryRun]

theorem cleanupOne_done_iff (dc : DisksClient) (r : NextResult)
    (projectID zone : String) (doSnapshot dryRun : Bool) :
    (doCleanupOne dc r projectID zone doSnapshot dryRun).2 = CleanupOneResult.done ↔
      r = NextResult.done := by
  cases r with
  | done => simp [doCleanupOne]
  | fail => simp [doCleanupOne]
  | ok disk =>
    simp [cleanupOne_ok_ne_done dc disk projectID zone doSnapshot dryRun]

theorem markCmd_true_iff_done_mem (dc : DisksClient) (parse : String → Option Int)
    (now : Int) (projectID zone : String) (cutoff : Int) (dryRun : Bool)
    (items : List NextResult) :
    (doMarkCmd dc parse now projectID zone cutoff dryRun items).2 = true ↔
      NextResult.done ∈ items := by
  induction items with
  | nil => simp [doMarkCmd]
  | cons r rest ih =>
    by_cases h : (doMarkOne dc r parse now projectID zone cutoff dryRun).2 =
        MarkOneResult.done
    · have hr : r = NextResult.done :=
        (markOne_done_iff dc r parse now projectID zone cutoff dryRun).mp h
      subst hr
      simp [doMarkCmd, doMarkOne]
    · have hr : ¬ (NextResult.done = r) := fun hh =>
        h ((markOne_done_iff dc r parse now projectID zone cutoff dryRun).mpr hh.symm)
      simp [doMarkCmd, h, ih, hr]

theorem cleanupCmd_true_iff_done_mem (dc : DisksClient) (projectID zone : String)
    (doSnapshot dryRun : Bool) (items : List NextResult) :
    (doCleanupCmd dc projectID zone doSnapshot dryRun items).2 = true ↔
      NextResult.done ∈ items := by
  induction items with
  | nil => simp [doCleanupCmd]
  | cons r rest ih =>
    by_cases h : (doCleanupOne dc r projectID zone doSnapshot dryRun).2 =
        CleanupOneResult.done
    · have hr : r = NextResult.done :=
        (cleanupOne_done_iff dc r projectID zone doSnapshot dryRun).mp h
      subst hr
      simp [doCleanupCmd, doCleanupOne]
    · have hr : ¬ (NextResult.done = r) := fun hh =>
        h ((cleanupOne_done_iff dc r projectID zone doSnapshot dryRun).mpr hh.symm)
      simp [doCleanupCmd, h, ih, hr]

theorem buildSetLabelsReq_labels (disk : Disk) (projectID zone k v : String) :
    (buildSetLabelsReq disk projectID zone k v).zoneSetLabelsRequestResource.labels =
      setLabel (disk.labels.getD []) k v := rfl

theorem buildSetLabelsReq_fingerprint (disk : Disk) (projectID zone k v : String) :
    (buildSetLabelsReq disk projectID
        zone k v).zoneSetLabelsRequestResource.labelFingerprint =
      disk.labelFingerprint := rfl

theorem handleSetLabel_fst (dc : DisksClient) (disk : Disk)
    (projectID zone k v : String) :
    (handleSetLabel dc disk projectID zone k v).1 =
      [Call.setLabels (buildSetLabelsReq disk projectID zone k v)] := by
  by_cases hs : dc.setLabelsErr (buildSetLabelsReq disk projectID zone k v) = true <;>
    simp [handleSetLabel, hs]

theorem handleSetLabel_ok {dc : DisksClient} (hdc : ∀ r, dc.setLabelsErr r = false)
    (disk : Disk) (projectID zone k v : String) :
    handleSetLabel dc disk projectID zone k v =
      ([Call.setLabels (buildSetLabelsReq disk projectID zone k v)],
        MarkOneResult.ok) := by
  simp [handleSetLabel, hdc]

theorem markOne_of_err {dc : DisksClient} {disk : Disk}
    {parse : String → Option Int} {now : Int} {projectID zone : String}
    {cutoff : Int} {dryRun : Bool} {a : action} {e : MarkErr}
    (h : handleMarkAction parse now disk.lastAttachTimestamp disk.labels cutoff =
      (a, some e)) :
    doMarkOne dc (NextResult.ok disk) parse now projectID zone cutoff dryRun =
      ([], MarkOneResult.actionErr e) := by
  simp [doMarkOne, h]

theorem markOne_of_skip {dc : DisksClient} {disk : Disk}
    {parse : String → Option Int} {now : Int} {projectID zone : String}
    {cutoff : Int} {dryRun : Bool}
    (h : handleMarkAction parse now disk.lastAttachTimestamp disk.labels cutoff =
      (actionSkip, none)) :
    doMarkOne dc (NextResult.ok disk) parse now projectID zone cutoff dryRun =
      ([], MarkOneResult.ok) := by
  simp [doMarkOne, h]

theorem markOne_of_mark {dc : DisksClient} {disk : Disk}
    {parse : String → Option Int} {now : Int} {projectID zone : String}
    {cutoff : Int}
    (h : handleMarkAction parse now disk.lastAttachTimestamp disk.labels cutoff =
      (actionMark, none)) :
    doMarkOne dc (NextResult.ok disk) parse now projectID zone cutoff false =
      handleSetLabel dc disk projectID zone labelMarkedForDeletion "true" := by
  simp [doMarkOne, h, actionMark, actionSkip]

theorem markOne_of_unmark {dc : DisksClient} {disk : Disk}
    {parse : String → Option Int} {now : Int} {projectID zone : String}
    {cutoff : Int}
    (h : handleMarkAction parse now disk.lastAttachTimestamp disk.labels cutoff =
      (actionUnmark, none)) :
    doMarkOne dc (NextResult.ok disk) parse now projectID zone cutoff false =
      handleSetLabel dc disk projectID zone labelMarkedForDeletion "false" := by
  simp [doMarkOne, h, actionUnmark, actionMark, actionSkip]

theorem markOne_of_mark_dry {dc : DisksClient} {disk : Disk}
    {parse : String → Option Int} {now : Int} {projectID zone : String}
    {cutoff : Int}
    (h : handleMarkAction parse now disk.lastAttachTimestamp disk.labels cutoff =
      (actionMark, none)) :
    doMarkOne dc (NextResult.ok disk) parse now projectID zone cutoff true =
      ([], MarkOneResult.dryRun) := by
  simp [doMarkOne, h, actionMark, actionSkip]

theorem markOne_of_unmark_dry {dc : DisksClient} {disk : Disk}
    {parse : String → Option Int} {now : Int} {projectID zone : String}
    {cutoff : Int}
    (h : handleMarkAction parse now disk.lastAttachTimestamp disk.labels cutoff =
      (actionUnmark, none)) :
    doMarkOne dc (NextResult.ok disk) parse now projectID zone cutoff true =
      ([], MarkOneResult.dryRun) := by
  simp [doMarkOne, h, actionUnmark, actionMark, actionSkip]

theorem labelsAfter_of_trace_nil {dc : DisksClient} {parse : String → Option Int}
    {now : Int} {projectID zone : String} {cutoff : Int} {disk : Disk}
    {res : MarkOneResult}
    (h : doMarkOne dc (NextResult.ok disk) parse now projectID zone cutoff false =
      ([], res)) :
    labelsAfterMarkOne dc parse now projectID zone cutoff disk = disk.labels := by
  cases res <;> simp [labelsAfterMarkOne, h]

theorem labelsAfter_of_write {dc : DisksClient} {parse : String → Option Int}
    {now : Int} {projectID zone : String} {cutoff : Int} {disk : Disk}
    {req : SetLabelsDiskRequest}
    (h : doMarkOne dc (NextResult.ok disk) parse now projectID zone cutoff false =
      ([Call.setLabels req], MarkOneResult.ok)) :
    labelsAfterMarkOne dc parse now projectID zone cutoff disk =
      some req.zoneSetLabelsRequestResource.labels := by
  simp [labelsAfterMarkOne, h]

/-- C7 counterexample: an inventory iterator fault does NOT stop the
pipeline loop and is NOT surfaced as a terminal error.  With the stream
(fault, disk, end-of-inventory) the mark pipeline continues past the fault,
still labels the following disk, and returns nil; the cleanup pipeline also
returns nil after a fault. -/
theorem pipeline_iterator_fault_cex :
    doMarkCmd dcOk parseT 100 "p" "z" 50 false
        [NextResult.fail, NextResult.ok diskUnmarked, NextResult.done] =
      ([Call.setLabels
          (buildSetLabelsReq diskUnmarked "p" "z" labelMarkedForDeletion "true")],
        true) ∧
    doCleanupCmd dcOk "p" "z" true false [NextResult.fail, NextResult.done] =
      ([], true) := by
  constructor <;> rfl

/-- C7 as amended: in both pipelines no fault of any kind stops the loop —
per-item faults and inventory iterator faults alike are logged and iteration
continues to the next disk — and the pipeline returns (always nil, never a
terminal error) exactly when the iterator yields its end-of-inventory
sentinel. -/
theorem pipelines_return_nil_only_on_done (dc : DisksClient)
    (parse : String → Option Int) (now : Int) (projectID zone : String)
    (cutoff : Int) (doSnapshot dryRun : Bool) (items : List NextResult) :
    ((doMarkCmd dc parse now projectID zone cutoff dryRun items).2 = true ↔
      NextResult.done ∈ items) ∧
    ((doCleanupCmd dc projectID zone doSnapshot dryRun items).2 = true ↔
      NextResult.done ∈ items) ∧
    doMarkCmd dc parse now projectID zone cutoff dryRun
        (NextResult.fail :: items) =
      doMarkCmd dc parse now projectID zone cutoff dryRun items ∧
    doCleanupCmd dc projectID zone doSnapshot dryRun (NextResult.fail :: items) =
      doCleanupCmd dc projectID zone doSnapshot dryRun items := by
  refine ⟨markCmd_true_iff_done_mem dc parse now projectID zone cutoff dryRun items,
    cleanupCmd_true_iff_done_mem dc projectID zone doSnapshot dryRun items, ?_, ?_⟩
  · simp [doMarkCmd, doMarkOne]
  · simp [doCleanupCmd, doCleanupOne]

theorem cleanup_snapshot_precedes_delete_witness :
    ∃ disk, NextResult.ok diskTrue = NextResult.ok disk ∧
      dcOk.createSnapshotErr (buildCreateSnapshotReq disk "p" "z") = false ∧
      dcOk.waitErr disk.name = false ∧
      buildDeleteReq diskTrue "p" "z" = buildDeleteReq disk "p" "z" ∧
      (doCleanupOne dcOk (NextResult.ok diskTrue) "p" "z" true false).1 =
        [Call.createSnapshot (buildCreateSnapshotReq disk "p" "z"),
          Call.waitSnapshot disk.name,
          Call.delete (buildDeleteReq diskTrue "p" "z")] :=
  cleanup_snapshot_precedes_delete dcOk (NextResult.ok diskTrue) "p" "z"
    (buildDeleteReq diskTrue "p" "z") (by decide)

/-- C10: every SetLabels request a mark pass issues submits the disk's
fetched label map with only `marked-for-deletion` added or overwritten —
`"true"` for Mark, `"false"` for Unmark — every other key preserved
unchanged, and carries the label fingerprint captured at fetch. -/
theorem setLabels_request_frame (dc : DisksClient) (next : NextResult)
    (parse : String → Option Int) (now : Int) (projectID zone : String)
    (cutoff : Int) (dryRun : Bool) (req : SetLabelsDiskRequest)
    (hmem : Call.setLabels req ∈
      (doMarkOne dc next parse now projectID zone cutoff dryRun).1) :
    ∃ disk, next = NextResult.ok disk ∧
      (((handleMarkAction parse now disk.lastAttachTimestamp disk.labels cutoff).1 =
            actionMark ∧
          req = buildSetLabelsReq disk projectID zone labelMarkedForDeletion "true" ∧
          lookupLabel labelMarkedForDeletion
            req.zoneSetLabelsRequestResource.labels = some "true") ∨
        ((handleMarkAction parse now disk.lastAttachTimestamp disk.labels cutoff).1 =
            actionUnmark ∧
          req = buildSetLabelsReq disk projectID zone labelMarkedForDeletion "false" ∧
          lookupLabel labelMarkedForDeletion
            req.zoneSetLabelsRequestResource.labels = some "false")) ∧
      req.zoneSetLabelsRequestResource.labelFingerprint = disk.labelFingerprint ∧
      ∀ k', k' ≠ labelMarkedForDeletion →
        lookupLabel k' req.zoneSetLabelsRequestResource.labels =
          lookupLabel k' (disk.labels.getD []) := by
  cases next with
  | done => simp [doMarkOne] at hmem
  | fail => simp [doMarkOne] at hmem
  | ok disk =>
    rcases h : handleMarkAction parse now disk.lastAttachTimestamp disk.labels
      cutoff with ⟨a, e⟩
    cases e with
    | some e => rw [markOne_of_err h] at hmem; simp at hmem
    | none =>
      by_cases ha1 : a = actionSkip
      · rw [ha1] at h
        rw [markOne_of_skip h] at hmem
        simp at hmem
      · by_cases ha2 : a = actionMark
        · rw [ha2] at h
          cases dryRun with
          | true => rw [markOne_of_mark_dry h] at hmem; simp at hmem
          | false =>
            rw [markOne_of_mark h, handleSetLabel_fst] at hmem
            simp only [List.mem_singleton, Call.setLabels.injEq] at hmem
            subst hmem
            refine ⟨disk, rfl, Or.inl ⟨by rw [h], rfl, ?_⟩, rfl, ?_⟩
            · rw [buildSetLabelsReq_labels]
              exact lookupLabel_setLabel_self _ _ _
            · intro k' hk'
              rw [buildSetLabelsReq_labels]
              exact lookupLabel_setLabel_ne _ _ _ _ hk'
        · by_cases ha3 : a = actionUnmark
          · rw [ha3] at h
            cases dryRun with
            | true => rw [markOne_of_unmark_dry h] at hmem; simp at hmem
            | false =>
              rw [markOne_of_unmark h, handleSetLabel_fst] at hmem
              simp only [List.mem_singleton, Call.setLabels.injEq] at hmem
              subst hmem
              refine ⟨disk, rfl, Or.inr ⟨by rw [h], rfl, ?_⟩, rfl, ?_⟩
              · rw [buildSetLabelsReq_labels]
                exact lookupLabel_setLabel_self _ _ _
              · intro k' hk'
                rw [buildSetLabelsReq_labels]
                exact lookupLabel_setLabel_ne _ _ _ _ hk'
          · have : doMarkOne dc (NextResult.ok disk) parse now projectID zone
                cutoff dryRun = ([], MarkOneResult.unhandledAction) := by
              simp [doMarkOne, h, ha1, ha2, ha3]
            rw [this] at hmem
            simp at hmem

theorem setLabels_request_frame_witness :
    ∃ disk, NextResult.ok diskUnmarked = NextResult.ok disk ∧
      (((handleMarkAction parseT 100 disk.lastAttachTimestamp disk.labels 50).1 =
            actionMark ∧
          buildSetLabelsReq diskUnmarked "p" "z" labelMarkedForDeletion "true" =
            buildSetLabelsReq disk "p" "z" labelMarkedForDeletion "true" ∧
          lookupLabel labelMarkedForDeletion
            (buildSetLabelsReq diskUnmarked "p" "z" labelMarkedForDeletion
              "true").zoneSetLabelsRequestResource.labels = some "true") ∨
        ((handleMarkAction parseT 100 disk.lastAttachTimestamp disk.labels 50).1 =
            actionUnmark ∧
          buildSetLabelsReq diskUnmarked "p" "z" labelMarkedForDeletion "true" =
            buildSetLabelsReq disk "p" "z" labelMarkedForDeletion "false" ∧
          lookupLabel labelMarkedForDeletion
            (buildSetLabelsReq diskUnmarked "p" "z" labelMarkedForDeletion
              "true").zoneSetLabelsRequestResource.labels = some "false")) ∧
      (buildSetLabelsReq diskUnmarked "p" "z" labelMarkedForDeletion
          "true").zoneSetLabelsRequestResource.labelFingerprint =
        disk.labelFingerprint ∧
      ∀ k', k' ≠ labelMarkedForDeletion →
        lookupLabel k' (buildSetLabelsReq diskUnmarked "p" "z"
            labelMarkedForDeletion "true").zoneSetLabelsRequestResource.labels =
          lookupLabel k' (disk.labels.getD []) :=
  setLabels_request_frame dcOk (NextResult.ok diskUnmarked) parseT 100 "p" "z" 50
    false (buildSetLabelsReq diskUnmarked "p" "z" labelMarkedForDeletion "true")
    (by decide)

/-- C8 counterexample: a never-attached disk (empty last-attach timestamp)
does NOT resolve to Skip on the second mark run: after the first run wrote
`marked-for-deletion = "true"`, the decision is Mark again and a SetLabels
call is issued again (re-writing `"true"`, so there is still no net label
change). -/
theorem mark_idempotence_cex :
    (handleMarkAction parseT 100 diskNever.lastAttachTimestamp
        (labelsAfterMarkOne dcOk parseT 100 "p" "z" 50 diskNever) 50).1 =
      actionMark ∧
    actionMark ≠ actionSkip ∧
    (doMarkOne dcOk (NextResult.ok { diskNever with
        labels := labelsAfterMarkOne dcOk parseT 100 "p" "z" 50 diskNever })
        parseT 100 "p" "z" 50 false).1 ≠ [] := by
  refine ⟨by decide, by decide, by decide⟩

/-- C8 as amended: running the mark pass twice with no intervening
attachment activity and an accepting service produces no net label change on
the second run, and every disk with a recorded (non-empty) last-attach
timestamp resolves to Skip on the second run; a never-attached disk resolves
to Mark again, its re-issued write re-writing `"true"` over `"true"`. -/
theorem mark_pipeline_idempotent (dc : DisksClient) (parse : String → Option Int)
    (now : Int) (projectID zone : String) (cutoff : Int) (disk : Disk)
    (hdc : ∀ r, dc.setLabelsErr r = false) :
    (disk.lastAttachTimestamp ≠ "" →
      (handleMarkAction parse now disk.lastAttachTimestamp
          (labelsAfterMarkOne dc parse now projectID zone cutoff disk) cutoff).1 =
        actionSkip) ∧
    labelsAfterMarkOne dc parse now projectID zone cutoff
        { disk with
          labels := labelsAfterMarkOne dc parse now projectID zone cutoff disk } =
      labelsAfterMarkOne dc parse now projectID zone cutoff disk := by
  obtain ⟨nm, di, sz, ts, ld, fp, rg⟩ := disk
  by_cases hts : ts = ""
  · subst hts
    have h1 : handleMarkAction parse now "" ld cutoff = (actionMark, none) :=
      hma_empty parse now ld cutoff
    have hm1 : doMarkOne dc (NextResult.ok ⟨nm, di, sz, "", ld, fp, rg⟩) parse now
        projectID zone cutoff false =
        ([Call.setLabels (buildSetLabelsReq ⟨nm, di, sz, "", ld, fp, rg⟩ projectID
          zone labelMarkedForDeletion "true")], MarkOneResult.ok) :=
      (markOne_of_mark h1).trans (handleSetLabel_ok hdc _ _ _ _ _)
    have hL : labelsAfterMarkOne dc parse now projectID zone cutoff
        ⟨nm, di, sz, "", ld, fp, rg⟩ =
        some (setLabel (ld.getD []) labelMarkedForDeletion "true") :=
      labelsAfter_of_write hm1
    refine ⟨fun h => absurd rfl h, ?_⟩
    rw [hL]
    have h2 : handleMarkAction parse now ""
        (some (setLabel (ld.getD []) labelMarkedForDeletion "true")) cutoff =
        (actionMark, none) := hma_empty parse now _ cutoff
    have hm2 : doMarkOne dc (NextResult.ok ⟨nm, di, sz, "",
        some (setLabel (ld.getD []) labelMarkedForDeletion "true"), fp, rg⟩)
        parse now projectID zone cutoff false =
        ([Call.setLabels (buildSetLabelsReq ⟨nm, di, sz, "",
          some (setLabel (ld.getD []) labelMarkedForDeletion "true"), fp, rg⟩
          projectID zone labelMarkedForDeletion "true")], MarkOneResult.ok) :=
      (markOne_of_mark h2).trans (handleSetLabel_ok hdc _ _ _ _ _)
    have hL2 := labelsAfter_of_write hm2
    rw [hL2, buildSetLabelsReq_labels]
    simp only [Option.getD_some]
    rw [setLabel_idem]
  · cases hp : parse ts with
    | none =>
      have h1 : handleMarkAction parse now ts ld cutoff =
          (actionSkip, some MarkErr.parseError) := hma_parse_fail hts hp
      have hL : labelsAfterMarkOne dc parse now projectID zone cutoff
          ⟨nm, di, sz, ts, ld, fp, rg⟩ = ld :=
        labelsAfter_of_trace_nil (markOne_of_err h1)
      refine ⟨fun _ => ?_, ?_⟩
      · rw [hL, h1]
      · rw [hL]
        exact hL
    | some t =>
      by_cases hcut : now - t < cutoff
      · by_cases hlv : lookupLabel labelMarkedForDeletion (ld.getD []) = some "true"
        · have h1 : handleMarkAction parse now ts ld cutoff =
              (actionUnmark, none) := hma_within_marked hts hp hcut hlv
          have hm1 : doMarkOne dc (NextResult.ok ⟨nm, di, sz, ts, ld, fp, rg⟩)
              parse now projectID zone cutoff false =
              ([Call.setLabels (buildSetLabelsReq ⟨nm, di, sz, ts, ld, fp, rg⟩
                projectID zone labelMarkedForDeletion "false")],
                MarkOneResult.ok) :=
            (markOne_of_unmark h1).trans (handleSetLabel_ok hdc _ _ _ _ _)
          have hL : labelsAfterMarkOne dc parse now projectID zone cutoff
              ⟨nm, di, sz, ts, ld, fp, rg⟩ =
              some (setLabel (ld.getD []) labelMarkedForDeletion "false") :=
            labelsAfter_of_write hm1
          have hlv2 : lookupLabel labelMarkedForDeletion
              ((some (setLabel (ld.getD []) labelMarkedForDeletion
                "false") : Option Labels).getD []) ≠ some "true" := by
            simp only [Option.getD_some]
            rw [lookupLabel_setLabel_self]
            simp
          have h2 : handleMarkAction parse now ts
              (some (setLabel (ld.getD []) labelMarkedForDeletion "false"))
              cutoff = (actionSkip, none) := hma_within_other hts hp hcut hlv2
          refine ⟨fun _ => ?_, ?_⟩
          · rw [hL, h2]
          · rw [hL]
            exact labelsAfter_of_trace_nil (markOne_of_skip h2)
        · have h1 : handleMarkAction parse now ts ld cutoff =
              (actionSkip, none) := hma_within_other hts hp hcut hlv
          have hL : labelsAfterMarkOne dc parse now projectID zone cutoff
              ⟨nm, di, sz, ts, ld, fp, rg⟩ = ld :=
            labelsAfter_of_trace_nil (markOne_of_skip h1)
          refine ⟨fun _ => ?_, ?_⟩
          · rw [hL, h1]
          · rw [hL]
            exact hL
      · cases hlv : lookupLabel labelMarkedForDeletion (ld.getD []) with
        | none =>
          have h1 : handleMarkAction parse now ts ld cutoff =
              (actionMark, none) := hma_eligible_absent hts hp hcut hlv
          have hm1 : doMarkOne dc (NextResult.ok ⟨nm, di, sz, ts, ld, fp, rg⟩)
              parse now projectID zone cutoff false =
              ([Call.setLabels (buildSetLabelsReq ⟨nm, di, sz, ts, ld, fp, rg⟩
                projectID zone labelMarkedForDeletion "true")],
                MarkOneResult.ok) :=
            (markOne_of_mark h1).trans (handleSetLabel_ok hdc _ _ _ _ _)
          have hL : labelsAfterMarkOne dc parse now projectID zone cutoff
              ⟨nm, di, sz, ts, ld, fp, rg⟩ =
              some (setLabel (ld.getD []) labelMarkedForDeletion "true") :=
            labelsAfter_of_write hm1
          have hlv2 : lookupLabel labelMarkedForDeletion
              ((some (setLabel (ld.getD []) labelMarkedForDeletion
                "true") : Option Labels).getD []) = some "true" := by
            simp only [Option.getD_some]
            exact lookupLabel_setLabel_self _ _ _
          have h2 : handleMarkAction parse now ts
              (some (setLabel (ld.getD []) labelMarkedForDeletion "true"))
              cutoff = (actionSkip, some MarkErr.alreadyLabelled) :=
            hma_eligible_marked hts hp hcut hlv2
          refine ⟨fun _ => ?_, ?_⟩
          · rw [hL, h2]
          · rw [hL]
            exact labelsAfter_of_trace_nil (markOne_of_err h2)
        | some v =>
          by_cases hv : v = "true"
          · subst hv
            have h1 : handleMarkAction parse now ts ld cutoff =
                (actionSkip, some MarkErr.alreadyLabelled) :=
              hma_eligible_marked hts hp hcut hlv
            have hL : labelsAfterMarkOne dc parse now projectID zone cutoff
                ⟨nm, di, sz, ts, ld, fp, rg⟩ = ld :=
              labelsAfter_of_trace_nil (markOne_of_err h1)
            refine ⟨fun _ => ?_, ?_⟩
            · rw [hL, h1]
            · rw [hL]
              exact hL
          · have h1 : handleMarkAction parse now ts ld cutoff =
                (actionSkip, some MarkErr.unlabelled) :=
              hma_eligible_other hts hp hcut hlv hv
            have hL : labelsAfterMarkOne dc parse now projectID zone cutoff
                ⟨nm, di, sz, ts, ld, fp, rg⟩ = ld :=
              labelsAfter_of_trace_nil (markOne_of_err h1)
            refine ⟨fun _ => ?_, ?_⟩
            · rw [hL, h1]
            · rw [hL]
              exact hL

theorem mark_pipeline_idempotent_witness :
    (diskTrue.lastAttachTimestamp ≠ "" →
      (handleMarkAction parseT 10 diskTrue.lastAttachTimestamp
          (labelsAfterMarkOne dcOk parseT 10 "p" "z" 50 diskTrue) 50).1 =
        actionSkip) ∧
    labelsAfterMarkOne dcOk parseT 10 "p" "z" 50
        { diskTrue with
          labels := labelsAfterMarkOne dcOk parseT 10 "p" "z" 50 diskTrue } =
      labelsAfterMarkOne dcOk parseT 10 "p" "z" 50 diskTrue :=
  mark_pipeline_idempotent dcOk parseT 10 "p" "z" 50 diskTrue (fun _ => rfl)
